import Mathlib

/-!
Shallow embedding of the gem5 results-analysis pipeline
(`Part2-Practical-Exploration/analyze_results.py`).

The statistics extractor `parse_stats_file` scans the report text with a
fixed catalog of regular expressions of the two shapes
`<literal>\s+([\d\.e\-\+]+)` and `<literal>\s+(\d+)`, converts each captured
token with Python `float`/`int` (falling back to the raw string on
`ValueError`), and then appends the derived metrics `branch_accuracy` and the
three cache hit rates.  Python floats are modelled as exact rationals;
Python dicts keyed by pairwise-distinct strings are modelled as association
lists in insertion order.
-/

set_option maxRecDepth 100000

namespace Gem5

/-- Value stored in the metric dictionary: Python stores an `int`, a `float`,
or — when numeric conversion raises `ValueError` — the raw token string. -/
inductive MValue where
  | intV (n : Int)
  | floatV (q : Rat)
  | strV (s : String)
deriving DecidableEq, Repr

/-- ASCII whitespace, the characters `\s` matches on the inputs considered. -/
def pyIsSpace (c : Char) : Bool :=
  c = ' ' || c = '\t' || c = '\n' || c = '\r' || c = '\x0b' || c = '\x0c'

/-- The two capture-group shapes used by the metric patterns:
`([\d\.e\-\+]+)` and `(\d+)`. -/
inductive TokKind where
  | numTok
  | intTok
deriving DecidableEq, Repr

/-- Character class of a capture group. -/
def tokPred : TokKind → Char → Bool
  | .numTok, c => c.isDigit || c = '.' || c = 'e' || c = '-' || c = '+'
  | .intTok, c => c.isDigit

/-- Numeric value of a digit run, most significant digit first. -/
def digitsVal (ds : List Char) : Nat :=
  ds.foldl (fun a c => 10 * a + (c.toNat - 48)) 0

/-- Nonempty digit run filling the whole input, as required after the optional
sign by Python `int(...)` (tokens from the pattern classes contain neither
whitespace nor underscores). -/
def pyIntDigits? (cs : List Char) : Option Int :=
  let ds := cs.takeWhile Char.isDigit
  let rest := cs.dropWhile Char.isDigit
  if ds.isEmpty || !rest.isEmpty then none else some (digitsVal ds)

/-- Python `int(str)` on the tokens the patterns can capture:
an optional sign followed by a nonempty digit run, nothing else. -/
def pyIntCore (cs : List Char) : Option Int :=
  if cs.head? = some '-' then (pyIntDigits? cs.tail).map (fun n => -n)
  else if cs.head? = some '+' then pyIntDigits? cs.tail
  else pyIntDigits? cs

/-- Python `int(str)` on a token string. -/
def pyInt? (s : String) : Option Int :=
  pyIntCore s.data

/-- Exponent digits: a nonempty digit run that must consume the rest of the
token. -/
def pyExpDigits? (cs : List Char) : Option Nat :=
  let ds := cs.takeWhile Char.isDigit
  let rest := cs.dropWhile Char.isDigit
  if ds.isEmpty || !rest.isEmpty then none else some (digitsVal ds)

/-- Optional exponent part `([eE][+-]?digits)?` of a Python float literal,
applied to the already-parsed mantissa; the exponent must end the token. -/
def pyFloatExp? (mant : Rat) (cs : List Char) : Option Rat :=
  if cs.isEmpty then some mant
  else if cs.head? = some 'e' || cs.head? = some 'E' then
    let r := cs.tail
    if r.head? = some '-' then (pyExpDigits? r.tail).map (fun e => mant / (10 : Rat) ^ e)
    else if r.head? = some '+' then (pyExpDigits? r.tail).map (fun e => mant * (10 : Rat) ^ e)
    else (pyExpDigits? r).map (fun e => mant * (10 : Rat) ^ e)
  else none

/-- Unsigned part of a Python float literal:
`digits ( '.' digits* )? exp?  |  '.' digits+ exp?`. -/
def pyFloatMant? (cs : List Char) : Option Rat :=
  let ip := cs.takeWhile Char.isDigit
  let cs1 := cs.dropWhile Char.isDigit
  if cs1.head? = some '.' then
    let fp := cs1.tail.takeWhile Char.isDigit
    let r2 := cs1.tail.dropWhile Char.isDigit
    if ip.isEmpty && fp.isEmpty then none
    else pyFloatExp? ((digitsVal ip : Rat) + (digitsVal fp : Rat) / (10 : Rat) ^ fp.length) r2
  else if ip.isEmpty then none
  else pyFloatExp? (digitsVal ip : Rat) cs1

/-- Python `float(str)` on the tokens the patterns can capture:
optional sign, then an unsigned float literal (the `inf`/`nan` spellings are
outside the pattern character classes). -/
def pyFloatCore (cs : List Char) : Option Rat :=
  if cs.head? = some '-' then (pyFloatMant? cs.tail).map (fun q => -q)
  else if cs.head? = some '+' then pyFloatMant? cs.tail
  else pyFloatMant? cs

/-- Python `float(str)` on a token string, with floats idealised as rationals. -/
def pyFloat? (s : String) : Option Rat :=
  pyFloatCore s.data

/-- Python `c in s` on a string. -/
def strHasChar (s : String) (c : Char) : Bool :=
  s.data.any (fun ch => ch = c)

/-- The numeric-conversion step of `parse_stats_file`: float when the token
contains a decimal point or an exponent marker (`'.' in value or 'e' in
value.lower()`), integer otherwise; on `ValueError` the raw token string is
stored instead. -/
def mvalOfToken (v : String) : MValue :=
  if strHasChar v '.' || strHasChar v 'e' || strHasChar v 'E' then
    match pyFloat? v with
    | some q => .floatV q
    | none => .strV v
  else
    match pyInt? v with
    | some n => .intV n
    | none => .strV v

/-- Match a literal at the head of the text, returning the remainder. -/
def stripLit : List Char → List Char → Option (List Char)
  | [], cs => some cs
  | _ :: _, [] => none
  | p :: ps, c :: cs => if p = c then stripLit ps cs else none

/-- Try the pattern `<lit>\s+(<class>+)` anchored at the head of `cs`; on
success return the captured token.  The whitespace and capture classes are
disjoint, so the greedy runs are exactly what the regex engine yields. -/
def tryMatchAt (lit : List Char) (tk : TokKind) (cs : List Char) : Option String :=
  match stripLit lit cs with
  | none => none
  | some rest =>
    let ws := rest.takeWhile pyIsSpace
    let r2 := rest.dropWhile pyIsSpace
    if ws.isEmpty then none
    else
      let tok := r2.takeWhile (tokPred tk)
      if tok.isEmpty then none else some (String.mk tok)

/-- `re.search`: leftmost match of `<lit>\s+(<class>+)` in the text, returning
the captured token. -/
def reSearch (lit : List Char) (tk : TokKind) : List Char → Option String
  | [] => tryMatchAt lit tk []
  | c :: rest =>
    match tryMatchAt lit tk (c :: rest) with
    | some t => some t
    | none => reSearch lit tk rest

/-- The metric catalog of `parse_stats_file`, in source order: metric name,
literal part of the pattern, and capture-group shape. -/
def patterns : List (String × String × TokKind) :=
  [("sim_seconds", "sim_seconds", .numTok),
   ("sim_insts", "sim_insts", .intTok),
   ("host_inst_rate", "host_inst_rate", .numTok),
   ("committedInsts", "system.cpu.committedInsts", .intTok),
   ("numCycles", "system.cpu.numCycles", .intTok),
   ("ipc", "system.cpu.ipc", .numTok),
   ("branch_lookups", "system.cpu.branchPred.lookups", .intTok),
   ("branch_condPredicted", "system.cpu.branchPred.condPredicted", .intTok),
   ("branch_condIncorrect", "system.cpu.branchPred.condIncorrect", .intTok),
   ("icache_overall_hits", "system.cpu.icache.overall_hits::total", .intTok),
   ("icache_overall_misses", "system.cpu.icache.overall_misses::total", .intTok),
   ("dcache_overall_hits", "system.cpu.dcache.overall_hits::total", .intTok),
   ("dcache_overall_misses", "system.cpu.dcache.overall_misses::total", .intTok),
   ("l2cache_overall_hits", "system.l2cache.overall_hits::total", .intTok),
   ("l2cache_overall_misses", "system.l2cache.overall_misses::total", .intTok),
   ("fetch_rate", "system.cpu.fetch.rate", .numTok),
   ("decode_rate", "system.cpu.decode.rate", .numTok),
   ("rename_rate", "system.cpu.rename.rate", .numTok),
   ("iew_rate", "system.cpu.iew.rate", .numTok),
   ("commit_rate", "system.cpu.commit.rate", .numTok),
   ("rob_reads", "system.cpu.rob.reads", .intTok),
   ("rob_writes", "system.cpu.rob.writes", .intTok),
   ("iq_reads", "system.cpu.iq.reads", .intTok),
   ("iq_writes", "system.cpu.iq.writes", .intTok)]

/-- One iteration of the pattern loop: search and convert, or skip. -/
def searchEntry (cs : List Char) (e : String × String × TokKind) :
    Option (String × MValue) :=
  (reSearch e.2.1.data e.2.2 cs).map (fun t => (e.1, mvalOfToken t))

/-- The primary-extraction loop of `parse_stats_file`: one entry per pattern
that matches, in catalog order. -/
def extractPrimary (content : String) : List (String × MValue) :=
  patterns.filterMap (searchEntry content.data)

/-- Numeric view of a stored value.  The keys the derived-metric step reads
are captured by `(\d+)` patterns, so on every reachable report they hold
integers and this view is total there. -/
def asNum? : MValue → Option Rat
  | .intV n => some (n : Rat)
  | .floatV q => some q
  | .strV _ => none

/-- Lookup of a metric as a number. -/
def lookupNum? (ms : List (String × MValue)) (k : String) : Option Rat :=
  (ms.lookup k).bind asNum?

/-- Derived-metric step for `branch_accuracy`: when both branch counters are
present, append `1 - condIncorrect / condPredicted` if `condPredicted > 0`
and `0.0` otherwise. -/
def addBranchAccuracy (ms : List (String × MValue)) : List (String × MValue) :=
  match lookupNum? ms "branch_condPredicted", lookupNum? ms "branch_condIncorrect" with
  | some p, some i =>
    if 0 < p then ms ++ [("branch_accuracy", .floatV (1 - i / p))]
    else ms ++ [("branch_accuracy", .floatV 0)]
  | _, _ => ms

/-- Derived-metric step for one cache tier: when both counters are present,
append `hits / (hits + misses)` if the total is positive and `0.0`
otherwise. -/
def addHitRate (cache : String) (ms : List (String × MValue)) : List (String × MValue) :=
  match lookupNum? ms (cache ++ "_overall_hits"), lookupNum? ms (cache ++ "_overall_misses") with
  | some h, some m =>
    if 0 < h + m then ms ++ [(cache ++ "_hit_rate", .floatV (h / (h + m)))]
    else ms ++ [(cache ++ "_hit_rate", .floatV 0)]
  | _, _ => ms

/-- All derived metrics, in source order: branch accuracy, then the hit rate
of each cache tier in the order `icache`, `dcache`, `l2cache`. -/
def addDerived (ms : List (String × MValue)) : List (String × MValue) :=
  addHitRate "l2cache" (addHitRate "dcache" (addHitRate "icache" (addBranchAccuracy ms)))

/-- The pure core of `parse_stats_file` on the file content: primary
extraction followed by the derived metrics. -/
def extract (content : String) : List (String × MValue) :=
  addDerived (extractPrimary content)

/-- Keys that only the derived-metric step can produce. -/
def derivedNames : List String :=
  ["branch_accuracy", "icache_hit_rate", "dcache_hit_rate", "l2cache_hit_rate"]

/-- Metric names whose pattern captures digits only (`(\d+)`). -/
def intMetricNames : List String :=
  ["sim_insts", "committedInsts", "numCycles", "branch_lookups",
   "branch_condPredicted", "branch_condIncorrect",
   "icache_overall_hits", "icache_overall_misses",
   "dcache_overall_hits", "dcache_overall_misses",
   "l2cache_overall_hits", "l2cache_overall_misses",
   "rob_reads", "rob_writes", "iq_reads", "iq_writes"]

/-- Whether the conversion step of `parse_stats_file` succeeds numerically on
a token (the chosen branch of `float`/`int` does not raise `ValueError`). -/
def convertsNumeric (t : String) : Bool :=
  if strHasChar t '.' || strHasChar t 'e' || strHasChar t 'E' then (pyFloat? t).isSome
  else (pyInt? t).isSome

/-- `parse_stats_file` including its filesystem check: a missing stats file
yields a warning naming the path and an empty report; otherwise the content
is extracted.  The first component collects the warnings printed. -/
def parse_stats_file (stats_path : String) (file : Option String) :
    List String × List (String × MValue) :=
  match file with
  | none => (["Warning: Stats file not found: " ++ stats_path], [])
  | some content => ([], extract content)

/-- The filesystem as the analyzer observes it: whether the results root
exists, which workload subdirectories each experiment directory holds (none
when the experiment directory is absent), and the content of each
`stats.txt` (none when the file is absent). -/
structure FileSystem where
  rootExists : Bool
  expWorkloads : String → Option (List String)
  statsContent : String → String → Option String

/-- The experiment directories `load_experiment_results` looks for. -/
def experiment_dirs : List String :=
  ["basic_pipeline", "branch_prediction", "superscalar", "smt"]

/-- `load_experiment_data`: per workload directory, the parsed stats file
(with the warnings it printed). -/
def load_experiment_data (fs : FileSystem) (e : String) (ws : List String) :
    List (String × (List String × List (String × MValue))) :=
  ws.map (fun w => (w, parse_stats_file (e ++ "/" ++ w ++ "/stats.txt") (fs.statsContent e w)))

/-- `load_experiment_results`: data of every experiment directory that
exists, in the fixed order of `experiment_dirs`. -/
def load_experiment_results (fs : FileSystem) :
    List (String × List (String × (List String × List (String × MValue)))) :=
  experiment_dirs.filterMap
    (fun e => (fs.expWorkloads e).map (fun ws => (e, load_experiment_data fs e ws)))

/-- One row of the performance-comparison table. -/
structure Row where
  experiment : String
  workload : String
  ipc : MValue
  sim_seconds : MValue
  committedInsts : MValue
  branch_accuracy : MValue
  dcache_hit_rate : MValue
  l2cache_hit_rate : MValue
deriving DecidableEq, Repr

/-- Python `stats.get(key, 0)`: the stored value, defaulting to the integer
`0` when the key is absent. -/
def statGetD (ms : List (String × MValue)) (k : String) : MValue :=
  (ms.lookup k).getD (.intV 0)

/-- Row construction of `generate_performance_comparison`: the selected
fields of one report, each defaulting to `0` when missing. -/
def makeRow (e w : String) (stats : List (String × MValue)) : Row :=
  { experiment := e, workload := w,
    ipc := statGetD stats "ipc",
    sim_seconds := statGetD stats "sim_seconds",
    committedInsts := statGetD stats "committedInsts",
    branch_accuracy := statGetD stats "branch_accuracy",
    dcache_hit_rate := statGetD stats "dcache_hit_rate",
    l2cache_hit_rate := statGetD stats "l2cache_hit_rate" }

/-- The comparison table: one row per (experiment, workload) pair of the
loaded results. -/
def comparisonRows
    (loaded : List (String × List (String × (List String × List (String × MValue))))) :
    List Row :=
  loaded.flatMap (fun ew => ew.2.map (fun wd => makeRow ew.1 wd.1 wd.2.2))

/-- All values of a column when they are numeric (pandas would not compute a
numeric mean otherwise). -/
def allNum? : List MValue → Option (List Rat)
  | [] => some []
  | v :: r =>
    match asNum? v, allNum? r with
    | some q, some qs => some (q :: qs)
    | _, _ => none

/-- The per-experiment aggregation `df.groupby('experiment')['ipc'].mean()`
of `generate_summary_report`: the arithmetic mean (sum over count) of the
`ipc` column across the rows whose experiment label matches. -/
def groupMeanIpc (rows : List Row) (label : String) : Option Rat :=
  let g := rows.filter (fun r => r.experiment == label)
  match allNum? (g.map Row.ipc) with
  | some qs => if qs.isEmpty then none else some (qs.sum / (qs.length : Rat))
  | none => none

/-- Whether Python `format(value, '.4f')` (and the pandas numeric reductions
over a column holding the value) succeed: an `int` or `float` formats, while
a raw string retained from a malformed token raises. -/
def fmtOk : MValue → Bool
  | .strV _ => false
  | .intV _ => true
  | .floatV _ => true

/-- The metric values `generate_summary_report` feeds to the `:.4f` float
format or to a numeric `ipc` aggregation, per loaded workload: every
workload's `ipc` (the bar heights of the IPC plot and the
`idxmax`/`groupby(...).mean()` aggregations over the full `ipc` column, and
the per-workload prints of the branch-prediction and superscalar analyses),
every `branch_prediction` workload's `branch_accuracy`, and every
`superscalar` workload's fetch/decode/commit rates.  Each is read with
`stats.get(key, 0)` (or taken from the comparison row built that way).  A
string at any of these sites raises — `ValueError` from `format`, or
`TypeError` from the pandas reduction — and nothing catches it. -/
def summaryFormatted
    (loaded : List (String × List (String × (List String × List (String × MValue))))) :
    List MValue :=
  loaded.flatMap (fun ew =>
    ew.2.flatMap (fun wd =>
      statGetD wd.2.2 "ipc" ::
        ((if ew.1 == "branch_prediction" then [statGetD wd.2.2 "branch_accuracy"] else []) ++
         (if ew.1 == "superscalar" then
            [statGetD wd.2.2 "fetch_rate", statGetD wd.2.2 "decode_rate",
             statGetD wd.2.2 "commit_rate"]
          else []))))

/-- The `main` entry point on the modelled observables: when the results
directory does not exist, print an error naming it and return exit code `1`
without touching any other part of the filesystem.  Otherwise the summary
report runs: the stats files are parsed (their warnings collected), and then
the formatting and aggregation sites of `summaryFormatted` are evaluated —
if every value there is numeric the run completes and `main` returns `0`,
while a string value raises an uncaught exception and the interpreter exits
with status `1`. -/
def main_run (fs : FileSystem) (results_dir : String) : List String × Int :=
  if fs.rootExists then
    let loaded := load_experiment_results fs
    let warnings := loaded.flatMap (fun ew => ew.2.flatMap (fun wd => wd.2.1))
    if (summaryFormatted loaded).all fmtOk then (warnings, 0) else (warnings, 1)
  else
    (["Error: Results directory not found: " ++ results_dir], 1)

/-- Lookup finds a pair whose key is at the head. -/
lemma lookup_cons_self (k : String) (v : MValue) (l : List (String × MValue)) :
    ((k, v) :: l).lookup k = some v := by
  simp [List.lookup]

/-- Lookup skips a head pair with a different key. -/
lemma lookup_cons_ne (k n : String) (v : MValue) (l : List (String × MValue))
    (hne : ¬ k = n) : ((n, v) :: l).lookup k = l.lookup k := by
  have hb : (k == n) = false := beq_eq_false_iff_ne.mpr hne
  simp [List.lookup, hb]

/-- A key found in the left part of an append is found in the append. -/
lemma lookup_append_some (l1 l2 : List (String × MValue)) (k : String) (v : MValue)
    (h : l1.lookup k = some v) : (l1 ++ l2).lookup k = some v := by
  induction l1 with
  | nil => simp [List.lookup] at h
  | cons a t ih =>
    obtain ⟨n, w⟩ := a
    by_cases hk : k = n
    · subst hk
      rw [lookup_cons_self] at h
      rw [List.cons_append, lookup_cons_self]
      exact h
    · rw [lookup_cons_ne k n w t hk] at h
      rw [List.cons_append, lookup_cons_ne k n w _ hk]
      exact ih h

/-- A key absent from the left part of an append is looked up in the right. -/
lemma lookup_append_none (l1 l2 : List (String × MValue)) (k : String)
    (h : l1.lookup k = none) : (l1 ++ l2).lookup k = l2.lookup k := by
  induction l1 with
  | nil => rfl
  | cons a t ih =>
    obtain ⟨n, w⟩ := a
    by_cases hk : k = n
    · subst hk
      rw [lookup_cons_self] at h
      cases h
    · rw [lookup_cons_ne k n w t hk] at h
      rw [List.cons_append, lookup_cons_ne k n w _ hk]
      exact ih h

/-- Appending a single pair with a different key does not change a lookup. -/
lemma lookup_append_single_ne (ms : List (String × MValue)) (k n : String) (v : MValue)
    (hne : ¬ k = n) : (ms ++ [(n, v)]).lookup k = ms.lookup k := by
  rcases h : ms.lookup k with _ | w
  · rw [lookup_append_none ms _ k h, lookup_cons_ne k n v [] hne]
    rfl
  · exact lookup_append_some ms _ k w h

/-- Appending a single pair under a fresh key makes it the looked-up value. -/
lemma lookup_append_single_self (ms : List (String × MValue)) (k : String) (v : MValue)
    (h : ms.lookup k = none) : (ms ++ [(k, v)]).lookup k = some v := by
  rw [lookup_append_none ms _ k h, lookup_cons_self]

/-- The branch-accuracy step only ever appends the key `branch_accuracy`. -/
lemma lookup_addBranchAccuracy_ne (ms : List (String × MValue)) (k : String)
    (hk : ¬ k = "branch_accuracy") :
    (addBranchAccuracy ms).lookup k = ms.lookup k := by
  rcases hp : lookupNum? ms "branch_condPredicted" with _ | p <;>
    rcases hi : lookupNum? ms "branch_condIncorrect" with _ | i <;>
    simp only [addBranchAccuracy, hp, hi]
  split <;> exact lookup_append_single_ne ms k "branch_accuracy" _ hk

/-- The hit-rate step for a cache only ever appends that cache's rate key. -/
lemma lookup_addHitRate_ne (cache : String) (ms : List (String × MValue)) (k : String)
    (hk : ¬ k = cache ++ "_hit_rate") :
    (addHitRate cache ms).lookup k = ms.lookup k := by
  rcases hh : lookupNum? ms (cache ++ "_overall_hits") with _ | h <;>
    rcases hm : lookupNum? ms (cache ++ "_overall_misses") with _ | m <;>
    simp only [addHitRate, hh, hm]
  split <;> exact lookup_append_single_ne ms k (cache ++ "_hit_rate") _ hk

/-- When both branch counters are numeric and the accuracy key is fresh, the
branch-accuracy step stores the guarded ratio. -/
lemma lookup_addBranchAccuracy_self (ms : List (String × MValue)) (p i : Rat)
    (hp : lookupNum? ms "branch_condPredicted" = some p)
    (hi : lookupNum? ms "branch_condIncorrect" = some i)
    (h0 : ms.lookup "branch_accuracy" = none) :
    (addBranchAccuracy ms).lookup "branch_accuracy" =
      some (.floatV (if 0 < p then 1 - i / p else 0)) := by
  by_cases hlt : 0 < p
  · simp only [addBranchAccuracy, hp, hi, if_pos hlt]
    exact lookup_append_single_self ms _ _ h0
  · simp only [addBranchAccuracy, hp, hi, if_neg hlt]
    exact lookup_append_single_self ms _ _ h0

/-- When both cache counters are numeric and the rate key is fresh, the
hit-rate step stores the guarded ratio. -/
lemma lookup_addHitRate_self (cache : String) (ms : List (String × MValue)) (h m : Rat)
    (hh : lookupNum? ms (cache ++ "_overall_hits") = some h)
    (hm : lookupNum? ms (cache ++ "_overall_misses") = some m)
    (h0 : ms.lookup (cache ++ "_hit_rate") = none) :
    (addHitRate cache ms).lookup (cache ++ "_hit_rate") =
      some (.floatV (if 0 < h + m then h / (h + m) else 0)) := by
  by_cases hlt : 0 < h + m
  · simp only [addHitRate, hh, hm, if_pos hlt]
    exact lookup_append_single_self ms _ _ h0
  · simp only [addHitRate, hh, hm, if_neg hlt]
    exact lookup_append_single_self ms _ _ h0

/-- With the hits counter unavailable, the hit-rate step is the identity. -/
lemma addHitRate_eq_of_hits_none (cache : String) (ms : List (String × MValue))
    (hh : lookupNum? ms (cache ++ "_overall_hits") = none) :
    addHitRate cache ms = ms := by
  rcases hm : lookupNum? ms (cache ++ "_overall_misses") with _ | m <;>
    simp only [addHitRate, hh, hm]

/-- A name none of whose patterns matches is absent from the loop's output. -/
lemma lookup_filterMapSearch_none (cs : List Char) (ps : List (String × String × TokKind))
    (k : String)
    (h : ∀ p tk, (k, p, tk) ∈ ps → reSearch p.data tk cs = none) :
    (ps.filterMap (searchEntry cs)).lookup k = none := by
  induction ps with
  | nil => rfl
  | cons e rest ih =>
    obtain ⟨n, p, tk⟩ := e
    rcases hs : reSearch p.data tk cs with _ | t
    · have he : searchEntry cs (n, p, tk) = none := by
        simp [searchEntry, hs]
      simp only [List.filterMap_cons, he]
      exact ih (fun p1 tk1 hm1 => h p1 tk1 (List.mem_cons_of_mem _ hm1))
    · by_cases hk : k = n
      · subst hk
        have hc := h p tk (List.mem_cons_self _ _)
        rw [hc] at hs
        cases hs
      · have he : searchEntry cs (n, p, tk) = some (n, mvalOfToken t) := by
          simp [searchEntry, hs]
        simp only [List.filterMap_cons, he]
        rw [lookup_cons_ne k n _ _ hk]
        exact ih (fun p1 tk1 hm1 => h p1 tk1 (List.mem_cons_of_mem _ hm1))

/-- With pairwise-distinct names, the value stored for a name is exactly the
converted leftmost match of its own pattern. -/
lemma lookup_filterMapSearch_mem (cs : List Char) (ps : List (String × String × TokKind))
    (k p : String) (tk : TokKind)
    (hmem : (k, p, tk) ∈ ps) (hnd : (ps.map Prod.fst).Nodup) :
    (ps.filterMap (searchEntry cs)).lookup k = (reSearch p.data tk cs).map mvalOfToken := by
  induction ps with
  | nil => cases hmem
  | cons e rest ih =>
    obtain ⟨n, p1, tk1⟩ := e
    rw [List.map_cons, List.nodup_cons] at hnd
    rcases List.mem_cons.mp hmem with heq | hmem1
    · injection heq with hk hrest
      injection hrest with hp htk
      subst hk
      subst hp
      subst htk
      rcases hs : reSearch p.data tk cs with _ | t
      · have he : searchEntry cs (k, p, tk) = none := by
          simp [searchEntry, hs]
        simp only [List.filterMap_cons, he, Option.map_none']
        exact lookup_filterMapSearch_none cs rest k
          (fun p2 tk2 hm2 => absurd (List.mem_map_of_mem Prod.fst hm2) hnd.1)
      · have he : searchEntry cs (k, p, tk) = some (k, mvalOfToken t) := by
          simp [searchEntry, hs]
        simp only [List.filterMap_cons, he, Option.map_some']
        rw [lookup_cons_self]
    · have hkmem : k ∈ rest.map Prod.fst := List.mem_map_of_mem Prod.fst hmem1
      have hkn : ¬ k = n := by
        intro hkn
        subst hkn
        exact hnd.1 hkmem
      rcases hs1 : reSearch p1.data tk1 cs with _ | t1
      · have he : searchEntry cs (n, p1, tk1) = none := by
          simp [searchEntry, hs1]
        simp only [List.filterMap_cons, he]
        exact ih hmem1 hnd.2
      · have he : searchEntry cs (n, p1, tk1) = some (n, mvalOfToken t1) := by
          simp [searchEntry, hs1]
        simp only [List.filterMap_cons, he]
        rw [lookup_cons_ne k n _ _ hkn]
        exact ih hmem1 hnd.2

/-- Every value the loop stores comes from a successful pattern search. -/
lemma lookup_filterMapSearch_some (cs : List Char) (ps : List (String × String × TokKind))
    (k : String) (v : MValue)
    (h : (ps.filterMap (searchEntry cs)).lookup k = some v) :
    ∃ p tk t, (k, p, tk) ∈ ps ∧ reSearch p.data tk cs = some t ∧ v = mvalOfToken t := by
  induction ps with
  | nil => cases h
  | cons e rest ih =>
    obtain ⟨n, p1, tk1⟩ := e
    rcases hs : reSearch p1.data tk1 cs with _ | t1
    · have he : searchEntry cs (n, p1, tk1) = none := by
        simp [searchEntry, hs]
      simp only [List.filterMap_cons, he] at h
      obtain ⟨p, tk, t, hm, hr, hv⟩ := ih h
      exact ⟨p, tk, t, List.mem_cons_of_mem _ hm, hr, hv⟩
    · have he : searchEntry cs (n, p1, tk1) = some (n, mvalOfToken t1) := by
        simp [searchEntry, hs]
      simp only [List.filterMap_cons, he] at h
      by_cases hk : k = n
      · subst hk
        rw [lookup_cons_self] at h
        injection h with h
        exact ⟨p1, tk1, t1, List.mem_cons_self _ _, hs, h.symm⟩
      · rw [lookup_cons_ne k n _ _ hk] at h
        obtain ⟨p, tk, t, hm, hr, hv⟩ := ih h
        exact ⟨p, tk, t, List.mem_cons_of_mem _ hm, hr, hv⟩

/-- The catalog names are pairwise distinct. -/
lemma patterns_names_nodup : (patterns.map Prod.fst).Nodup := by decide

/-- A name outside the catalog is absent from the primary extraction. -/
lemma lookup_extractPrimary_not_catalog (c : String) (k : String)
    (hk : ¬ k ∈ patterns.map Prod.fst) :
    (extractPrimary c).lookup k = none :=
  lookup_filterMapSearch_none c.data patterns k
    (fun _ _ hm => absurd (List.mem_map_of_mem Prod.fst hm) hk)

/-- Central characterisation of the primary extraction: the value stored for a
catalog name is the converted leftmost match of its own pattern. -/
lemma lookup_extractPrimary_mem (c : String) (k p : String) (tk : TokKind)
    (hmem : (k, p, tk) ∈ patterns) :
    (extractPrimary c).lookup k = (reSearch p.data tk c.data).map mvalOfToken :=
  lookup_filterMapSearch_mem c.data patterns k p tk hmem patterns_names_nodup

/-- A key that is not a derived-metric key reads through the derived step. -/
lemma lookup_extract_not_derived (c : String) (k : String)
    (hk : ¬ k ∈ derivedNames) :
    (extract c).lookup k = (extractPrimary c).lookup k := by
  simp only [derivedNames, List.mem_cons, List.not_mem_nil, or_false, not_or] at hk
  obtain ⟨h1, h2, h3, h4⟩ := hk
  have e2 : ("icache" ++ "_hit_rate" : String) = "icache_hit_rate" := rfl
  have e3 : ("dcache" ++ "_hit_rate" : String) = "dcache_hit_rate" := rfl
  have e4 : ("l2cache" ++ "_hit_rate" : String) = "l2cache_hit_rate" := rfl
  unfold extract addDerived
  rw [lookup_addHitRate_ne "l2cache" _ k (fun hh => h4 (hh.trans e4)),
      lookup_addHitRate_ne "dcache" _ k (fun hh => h3 (hh.trans e3)),
      lookup_addHitRate_ne "icache" _ k (fun hh => h2 (hh.trans e2)),
      lookup_addBranchAccuracy_ne _ k h1]

/-- On a nonempty all-digit input, the digit-run parse returns its value. -/
lemma pyIntDigits_all (l : List Char) (hne : ¬ l = [])
    (hd : ∀ ch ∈ l, ch.isDigit = true) :
    pyIntDigits? l = some (digitsVal l) := by
  have h1 : l.takeWhile Char.isDigit = l := List.takeWhile_eq_self_iff.mpr hd
  have h2 : l.dropWhile Char.isDigit = [] := List.dropWhile_eq_nil_iff.mpr hd
  rcases l with _ | ⟨c, cs⟩
  · exact absurd rfl hne
  · simp only [pyIntDigits?, h1, h2]
    rfl

/-- On a nonempty all-digit input, Python `int` returns its value. -/
lemma pyIntCore_all (l : List Char) (hne : ¬ l = [])
    (hd : ∀ ch ∈ l, ch.isDigit = true) :
    pyIntCore l = some (digitsVal l) := by
  rcases l with _ | ⟨c, cs⟩
  · exact absurd rfl hne
  · have hc : c.isDigit = true := hd c (List.mem_cons_self c cs)
    have hcm : ¬ c = '-' := by
      intro h
      subst h
      exact absurd hc (by decide)
    have hcp : ¬ c = '+' := by
      intro h
      subst h
      exact absurd hc (by decide)
    have g1 : ¬ (c :: cs).head? = some '-' := by
      simp only [List.head?_cons, Option.some.injEq]
      exact hcm
    have g2 : ¬ (c :: cs).head? = some '+' := by
      simp only [List.head?_cons, Option.some.injEq]
      exact hcp
    simp only [pyIntCore, if_neg g1, if_neg g2]
    exact pyIntDigits_all _ hne hd

/-- A nonempty all-digit token converts through the integer branch to the
value of its digits. -/
lemma mvalOfToken_digits (t : String) (hne : ¬ t.data = [])
    (hd : ∀ ch ∈ t.data, ch.isDigit = true) :
    mvalOfToken t = .intV (digitsVal t.data) := by
  have hnc : ∀ c0 : Char, ¬ c0.isDigit = true → strHasChar t c0 = false := by
    intro c0 hc0
    simp only [strHasChar, List.any_eq_false, decide_eq_true_eq]
    intro x hx hxe
    subst hxe
    exact hc0 (hd x hx)
  have hdot := hnc '.' (by decide)
  have hle := hnc 'e' (by decide)
  have hlE := hnc 'E' (by decide)
  have hint : pyInt? t = some (digitsVal t.data) := pyIntCore_all t.data hne hd
  simp [mvalOfToken, hdot, hle, hlE, hint]

/-- A token captured by a `(\d+)` group at a fixed position is a nonempty
digit run. -/
lemma tryMatchAt_intTok_digits (lit cs : List Char) (t : String)
    (h : tryMatchAt lit .intTok cs = some t) :
    ¬ t.data = [] ∧ ∀ ch ∈ t.data, ch.isDigit = true := by
  unfold tryMatchAt at h
  rcases hs : stripLit lit cs with _ | rest
  · simp only [hs] at h
    exact Option.noConfusion h
  · simp only [hs] at h
    split at h
    · cases h
    · split at h
      · cases h
      · rename_i hw htok
        injection h with h
        subst h
        refine ⟨?_, ?_⟩
        · intro hdata
          have hnil : List.takeWhile (tokPred TokKind.intTok) (List.dropWhile pyIsSpace rest) = [] :=
            hdata
          exact htok (by rw [hnil]; rfl)
        · intro ch hch
          exact List.mem_takeWhile_imp hch

/-- A token captured anywhere by a `(\d+)` group is a nonempty digit run. -/
lemma reSearch_intTok_digits (lit : List Char) (cs : List Char) (t : String)
    (h : reSearch lit .intTok cs = some t) :
    ¬ t.data = [] ∧ ∀ ch ∈ t.data, ch.isDigit = true := by
  induction cs with
  | nil => exact tryMatchAt_intTok_digits lit [] t h
  | cons c rest ih =>
    rw [reSearch] at h
    rcases ht : tryMatchAt lit .intTok (c :: rest) with _ | t1
    · simp only [ht] at h
      exact ih h
    · simp only [ht] at h
      injection h with h
      subst h
      exact tryMatchAt_intTok_digits lit (c :: rest) t1 ht

/-- `reSearch` returns the match at the least starting position: a match at
position `i` with no match at any earlier position is the result. -/
lemma reSearch_of_first (lit : List Char) (tk : TokKind) (cs : List Char) (i : Nat) (t : String)
    (h : tryMatchAt lit tk (cs.drop i) = some t)
    (hmin : ∀ j, j < i → tryMatchAt lit tk (cs.drop j) = none) :
    reSearch lit tk cs = some t := by
  induction cs generalizing i with
  | nil =>
    rw [List.drop_nil] at h
    exact h
  | cons c rest ih =>
    cases i with
    | zero =>
      rw [List.drop_zero] at h
      rw [reSearch]
      simp only [h]
    | succ i1 =>
      have h0 := hmin 0 (Nat.succ_pos i1)
      rw [List.drop_zero] at h0
      rw [reSearch]
      simp only [h0]
      rw [List.drop_succ_cons] at h
      refine ih i1 h ?_
      intro j hj
      have hj1 := hmin (j + 1) (Nat.succ_lt_succ hj)
      rw [List.drop_succ_cons] at hj1
      exact hj1

/-- Numeric lookups agree on reports with equal lookups. -/
lemma lookupNum_congr (ms1 ms2 : List (String × MValue)) (k : String)
    (h : ms1.lookup k = ms2.lookup k) : lookupNum? ms1 k = lookupNum? ms2 k := by
  unfold lookupNum?
  rw [h]

/-- Value of `branch_accuracy` in the extractor output when both branch
counters were extracted numerically. -/
lemma lookup_extract_branch_accuracy (c : String) (p i : Rat)
    (hp : lookupNum? (extractPrimary c) "branch_condPredicted" = some p)
    (hi : lookupNum? (extractPrimary c) "branch_condIncorrect" = some i) :
    (extract c).lookup "branch_accuracy" =
      some (.floatV (if 0 < p then 1 - i / p else 0)) := by
  have h0 : (extractPrimary c).lookup "branch_accuracy" = none :=
    lookup_extractPrimary_not_catalog c _ (by decide)
  have hba := lookup_addBranchAccuracy_self (extractPrimary c) p i hp hi h0
  unfold extract addDerived
  rw [lookup_addHitRate_ne "l2cache" _ _ (by decide),
      lookup_addHitRate_ne "dcache" _ _ (by decide),
      lookup_addHitRate_ne "icache" _ _ (by decide)]
  exact hba

/-- Value of a cache tier's hit rate in the extractor output when both of its
counters were extracted numerically. -/
lemma lookup_extract_hit_rate (c : String) (cache : String)
    (hc : cache = "icache" ∨ cache = "dcache" ∨ cache = "l2cache")
    (h m : Rat)
    (hh : lookupNum? (extractPrimary c) (cache ++ "_overall_hits") = some h)
    (hm : lookupNum? (extractPrimary c) (cache ++ "_overall_misses") = some m) :
    (extract c).lookup (cache ++ "_hit_rate") =
      some (.floatV (if 0 < h + m then h / (h + m) else 0)) := by
  rcases hc with hc | hc | hc <;> subst hc
  · have hh0 : lookupNum? (addBranchAccuracy (extractPrimary c)) ("icache" ++ "_overall_hits") = some h :=
      (lookupNum_congr _ _ _ (lookup_addBranchAccuracy_ne _ _ (by decide))).trans hh
    have hm0 : lookupNum? (addBranchAccuracy (extractPrimary c)) ("icache" ++ "_overall_misses") = some m :=
      (lookupNum_congr _ _ _ (lookup_addBranchAccuracy_ne _ _ (by decide))).trans hm
    have hr0 : (addBranchAccuracy (extractPrimary c)).lookup ("icache" ++ "_hit_rate") = none :=
      (lookup_addBranchAccuracy_ne _ _ (by decide)).trans
        (lookup_extractPrimary_not_catalog c _ (by decide))
    have h1 := lookup_addHitRate_self "icache" _ h m hh0 hm0 hr0
    unfold extract addDerived
    rw [lookup_addHitRate_ne "l2cache" _ _ (by decide),
        lookup_addHitRate_ne "dcache" _ _ (by decide)]
    exact h1
  · have hh0 : lookupNum? (addHitRate "icache" (addBranchAccuracy (extractPrimary c)))
        ("dcache" ++ "_overall_hits") = some h :=
      (lookupNum_congr _ _ _ ((lookup_addHitRate_ne "icache" _ _ (by decide)).trans
        (lookup_addBranchAccuracy_ne _ _ (by decide)))).trans hh
    have hm0 : lookupNum? (addHitRate "icache" (addBranchAccuracy (extractPrimary c)))
        ("dcache" ++ "_overall_misses") = some m :=
      (lookupNum_congr _ _ _ ((lookup_addHitRate_ne "icache" _ _ (by decide)).trans
        (lookup_addBranchAccuracy_ne _ _ (by decide)))).trans hm
    have hr0 : (addHitRate "icache" (addBranchAccuracy (extractPrimary c))).lookup
        ("dcache" ++ "_hit_rate") = none :=
      ((lookup_addHitRate_ne "icache" _ _ (by decide)).trans
        (lookup_addBranchAccuracy_ne _ _ (by decide))).trans
        (lookup_extractPrimary_not_catalog c _ (by decide))
    have h1 := lookup_addHitRate_self "dcache" _ h m hh0 hm0 hr0
    unfold extract addDerived
    rw [lookup_addHitRate_ne "l2cache" _ _ (by decide)]
    exact h1
  · have hh0 : lookupNum? (addHitRate "dcache" (addHitRate "icache"
        (addBranchAccuracy (extractPrimary c)))) ("l2cache" ++ "_overall_hits") = some h :=
      (lookupNum_congr _ _ _ ((lookup_addHitRate_ne "dcache" _ _ (by decide)).trans
        ((lookup_addHitRate_ne "icache" _ _ (by decide)).trans
          (lookup_addBranchAccuracy_ne _ _ (by decide))))).trans hh
    have hm0 : lookupNum? (addHitRate "dcache" (addHitRate "icache"
        (addBranchAccuracy (extractPrimary c)))) ("l2cache" ++ "_overall_misses") = some m :=
      (lookupNum_congr _ _ _ ((lookup_addHitRate_ne "dcache" _ _ (by decide)).trans
        ((lookup_addHitRate_ne "icache" _ _ (by decide)).trans
          (lookup_addBranchAccuracy_ne _ _ (by decide))))).trans hm
    have hr0 : (addHitRate "dcache" (addHitRate "icache"
        (addBranchAccuracy (extractPrimary c)))).lookup ("l2cache" ++ "_hit_rate") = none :=
      ((lookup_addHitRate_ne "dcache" _ _ (by decide)).trans
        ((lookup_addHitRate_ne "icache" _ _ (by decide)).trans
          (lookup_addBranchAccuracy_ne _ _ (by decide)))).trans
        (lookup_extractPrimary_not_catalog c _ (by decide))
    have h1 := lookup_addHitRate_self "l2cache" _ h m hh0 hm0 hr0
    unfold extract addDerived
    exact h1

/-- With a cache tier's hits counter missing, no hit-rate key is produced. -/
lemma lookup_extract_hit_rate_none (c : String) (cache : String)
    (hc : cache = "icache" ∨ cache = "dcache" ∨ cache = "l2cache")
    (hh : (extractPrimary c).lookup (cache ++ "_overall_hits") = none) :
    (extract c).lookup (cache ++ "_hit_rate") = none := by
  rcases hc with hc | hc | hc <;> subst hc
  · have hh0 : lookupNum? (addBranchAccuracy (extractPrimary c)) ("icache" ++ "_overall_hits") = none := by
      unfold lookupNum?
      rw [lookup_addBranchAccuracy_ne _ _ (by decide), hh]
      rfl
    have hid := addHitRate_eq_of_hits_none "icache" _ hh0
    unfold extract addDerived
    rw [lookup_addHitRate_ne "l2cache" _ _ (by decide),
        lookup_addHitRate_ne "dcache" _ _ (by decide), hid,
        lookup_addBranchAccuracy_ne _ _ (by decide)]
    exact lookup_extractPrimary_not_catalog c _ (by decide)
  · have hh0 : lookupNum? (addHitRate "icache" (addBranchAccuracy (extractPrimary c)))
        ("dcache" ++ "_overall_hits") = none := by
      unfold lookupNum?
      rw [lookup_addHitRate_ne "icache" _ _ (by decide),
          lookup_addBranchAccuracy_ne _ _ (by decide), hh]
      rfl
    have hid := addHitRate_eq_of_hits_none "dcache" _ hh0
    unfold extract addDerived
    rw [lookup_addHitRate_ne "l2cache" _ _ (by decide), hid,
        lookup_addHitRate_ne "icache" _ _ (by decide),
        lookup_addBranchAccuracy_ne _ _ (by decide)]
    exact lookup_extractPrimary_not_catalog c _ (by decide)
  · have hh0 : lookupNum? (addHitRate "dcache" (addHitRate "icache"
        (addBranchAccuracy (extractPrimary c)))) ("l2cache" ++ "_overall_hits") = none := by
      unfold lookupNum?
      rw [lookup_addHitRate_ne "dcache" _ _ (by decide),
          lookup_addHitRate_ne "icache" _ _ (by decide),
          lookup_addBranchAccuracy_ne _ _ (by decide), hh]
      rfl
    have hid := addHitRate_eq_of_hits_none "l2cache" _ hh0
    unfold extract addDerived
    rw [hid, lookup_addHitRate_ne "dcache" _ _ (by decide),
        lookup_addHitRate_ne "icache" _ _ (by decide),
        lookup_addBranchAccuracy_ne _ _ (by decide)]
    exact lookup_extractPrimary_not_catalog c _ (by decide)

/-- Catalog names are never derived-metric names. -/
lemma catalog_not_derived : ∀ x ∈ patterns.map Prod.fst, ¬ x ∈ derivedNames := by decide

/-- The names in `intMetricNames` are never derived-metric names. -/
lemma int_names_not_derived : ∀ k ∈ intMetricNames, ¬ k ∈ derivedNames := by decide

/-- Every catalog entry named in `intMetricNames` uses a `(\d+)` capture. -/
lemma patterns_int_names : ∀ x ∈ patterns, x.1 ∈ intMetricNames → x.2.2 = TokKind.intTok := by
  decide

/-- Claim C1, counterexample to the claim as stated: the input consisting of
the single line `ipc   1.234` yields a report with no `ipc` key at all (the
`ipc` pattern requires the literal `system.cpu.ipc`); moreover, even when
that literal occurs, an earlier match decides the value, so a later line
carrying `1.234` does not. -/
theorem claim1_counterexample :
    (extract "ipc   1.234").lookup "ipc" = none ∧
    (extract "system.cpu.ipc   9\nsystem.cpu.ipc   1.234").lookup "ipc" = some (.intV 9) :=
  ⟨by decide, by decide⟩

/-- Claim C1 (amended): for every input text whose leftmost match of the
`system.cpu.ipc` pattern captures the token `1.234`, extraction maps `ipc`
to the floating-point value `1.234`; and for every input text whose leftmost
match of the `sim_insts` pattern captures `1000`, extraction maps
`sim_insts` to the integer `1000`. -/
theorem claim1_extract_ipc_sim_insts (c : String) :
    (reSearch ("system.cpu.ipc" : String).data .numTok c.data = some "1.234" →
      (extract c).lookup "ipc" = some (.floatV (1234 / 1000))) ∧
    (reSearch ("sim_insts" : String).data .intTok c.data = some "1000" →
      (extract c).lookup "sim_insts" = some (.intV 1000)) := by
  constructor
  · intro hs
    rw [lookup_extract_not_derived c _ (by decide),
        lookup_extractPrimary_mem c "ipc" "system.cpu.ipc" .numTok (by decide), hs]
    with_unfolding_all decide
  · intro hs
    rw [lookup_extract_not_derived c _ (by decide),
        lookup_extractPrimary_mem c "sim_insts" "sim_insts" .intTok (by decide), hs]
    with_unfolding_all decide

/-- Claim C1 witness: a concrete input exercising both amended parts. -/
theorem claim1_extract_ipc_sim_insts_witness :
    (extract "system.cpu.ipc   1.234\nsim_insts   1000").lookup "ipc" =
      some (.floatV (1234 / 1000)) ∧
    (extract "system.cpu.ipc   1.234\nsim_insts   1000").lookup "sim_insts" =
      some (.intV 1000) :=
  ⟨(claim1_extract_ipc_sim_insts _).1 (by decide),
   (claim1_extract_ipc_sim_insts _).2 (by decide)⟩

/-- Claim C2: whenever both branch counters are extracted, `branch_accuracy`
is `1 - condIncorrect / condPredicted` when `condPredicted > 0` and `0` when
`condPredicted = 0` (whatever `condIncorrect` is); the counters `(100, 13)`
give exactly `0.87`. -/
theorem claim2_branch_accuracy :
    (∀ (c : String) (p i : Int),
      (extract c).lookup "branch_condPredicted" = some (.intV p) →
      (extract c).lookup "branch_condIncorrect" = some (.intV i) →
      ((0 < p → (extract c).lookup "branch_accuracy" =
          some (.floatV (1 - (i : Rat) / (p : Rat)))) ∧
       (p = 0 → (extract c).lookup "branch_accuracy" = some (.floatV 0)))) ∧
    (extract "system.cpu.branchPred.condPredicted 100\nsystem.cpu.branchPred.condIncorrect 13").lookup
      "branch_accuracy" = some (.floatV (87 / 100)) := by
  constructor
  · intro c p i hp hi
    rw [lookup_extract_not_derived c _ (by decide)] at hp
    rw [lookup_extract_not_derived c _ (by decide)] at hi
    have hp1 : lookupNum? (extractPrimary c) "branch_condPredicted" = some (p : Rat) := by
      simp [lookupNum?, hp, asNum?]
    have hi1 : lookupNum? (extractPrimary c) "branch_condIncorrect" = some (i : Rat) := by
      simp [lookupNum?, hi, asNum?]
    have hba := lookup_extract_branch_accuracy c (p : Rat) (i : Rat) hp1 hi1
    constructor
    · intro hpos
      have hq : (0 : Rat) < (p : Rat) := by exact_mod_cast hpos
      rw [hba, if_pos hq]
    · intro hz
      subst hz
      have hq : ¬ (0 : Rat) < ((0 : Int) : Rat) := by norm_num
      rw [hba, if_neg hq]
  · with_unfolding_all decide

/-- Claim C2 witness: a zero `condPredicted` with nonzero `condIncorrect`
gives accuracy `0`. -/
theorem claim2_branch_accuracy_witness :
    (extract "system.cpu.branchPred.condPredicted 0\nsystem.cpu.branchPred.condIncorrect 13").lookup
      "branch_accuracy" = some (.floatV 0) :=
  (claim2_branch_accuracy.1 _ 0 13 (by with_unfolding_all decide) (by with_unfolding_all decide)).2 rfl

/-- Claim C3: for each cache tier, when both counters are extracted the hit
rate is `hits / (hits + misses)` for a positive total and `0` for a zero
total; with both counters missing no hit-rate key is produced; and counters
`(80, 20)` give `0.8`. -/
theorem claim3_cache_hit_rates :
    (∀ (cache : String), cache ∈ (["icache", "dcache", "l2cache"] : List String) →
      ∀ (c : String),
        (∀ (h m : Int),
          (extract c).lookup (cache ++ "_overall_hits") = some (.intV h) →
          (extract c).lookup (cache ++ "_overall_misses") = some (.intV m) →
          ((0 < h + m → (extract c).lookup (cache ++ "_hit_rate") =
              some (.floatV ((h : Rat) / ((h : Rat) + (m : Rat))))) ∧
           (h + m = 0 → (extract c).lookup (cache ++ "_hit_rate") = some (.floatV 0)))) ∧
        ((extract c).lookup (cache ++ "_overall_hits") = none →
         (extract c).lookup (cache ++ "_overall_misses") = none →
         (extract c).lookup (cache ++ "_hit_rate") = none)) ∧
    (extract "system.cpu.dcache.overall_hits::total 80\nsystem.cpu.dcache.overall_misses::total 20").lookup
      "dcache_hit_rate" = some (.floatV (4 / 5)) := by
  constructor
  · intro cache hcache c
    have hc : cache = "icache" ∨ cache = "dcache" ∨ cache = "l2cache" := by
      simpa using hcache
    constructor
    · intro h m hh hm
      have hnotd1 : ¬ (cache ++ "_overall_hits") ∈ derivedNames := by
        rcases hc with hc1 | hc1 | hc1 <;> subst hc1 <;> decide
      have hnotd2 : ¬ (cache ++ "_overall_misses") ∈ derivedNames := by
        rcases hc with hc1 | hc1 | hc1 <;> subst hc1 <;> decide
      rw [lookup_extract_not_derived c _ hnotd1] at hh
      rw [lookup_extract_not_derived c _ hnotd2] at hm
      have hh1 : lookupNum? (extractPrimary c) (cache ++ "_overall_hits") = some (h : Rat) := by
        simp [lookupNum?, hh, asNum?]
      have hm1 : lookupNum? (extractPrimary c) (cache ++ "_overall_misses") = some (m : Rat) := by
        simp [lookupNum?, hm, asNum?]
      have key := lookup_extract_hit_rate c cache hc (h : Rat) (m : Rat) hh1 hm1
      constructor
      · intro hpos
        have hq : (0 : Rat) < (h : Rat) + (m : Rat) := by exact_mod_cast hpos
        rw [key, if_pos hq]
      · intro hz
        have hq : ¬ (0 : Rat) < (h : Rat) + (m : Rat) := by
          have he : (h : Rat) + (m : Rat) = ((h + m : Int) : Rat) := by push_cast; ring
          rw [he, hz]
          norm_num
        rw [key, if_neg hq]
    · intro hh _
      have hnotd1 : ¬ (cache ++ "_overall_hits") ∈ derivedNames := by
        rcases hc with hc1 | hc1 | hc1 <;> subst hc1 <;> decide
      rw [lookup_extract_not_derived c _ hnotd1] at hh
      exact lookup_extract_hit_rate_none c cache hc hh
  · with_unfolding_all decide

/-- Claim C3 witness: counters 80/20 through the full pipeline for `icache`,
and the missing-counters case on empty input for `l2cache`. -/
theorem claim3_cache_hit_rates_witness :
    (extract "system.cpu.icache.overall_hits::total 80\nsystem.cpu.icache.overall_misses::total 20").lookup
      ("icache" ++ "_hit_rate") =
      some (.floatV (((80 : Int) : Rat) / (((80 : Int) : Rat) + ((20 : Int) : Rat)))) ∧
    (extract "").lookup ("l2cache" ++ "_hit_rate") = none :=
  ⟨((claim3_cache_hit_rates.1 "icache" (by decide) _).1 80 20
      (by with_unfolding_all decide) (by with_unfolding_all decide)).1 (by decide),
   (claim3_cache_hit_rates.1 "l2cache" (by decide) _).2 (by decide) (by decide)⟩

/-- Claim C4: a missing stats file is reported as a warning naming the path
and yields an empty report — no metrics, hence no derived metrics — and the
modelled function is total, so no exception aborts the run. -/
theorem claim4_missing_stats_file (stats_path : String) :
    parse_stats_file stats_path none =
      (["Warning: Stats file not found: " ++ stats_path], []) :=
  rfl

/-- Claim C5: when a metric's pattern matches but the captured token fails
numeric conversion, the raw token string is stored under the metric name
(and the extractor, a total function, propagates no exception). -/
theorem claim5_raw_token_fallback (c k p : String) (tk : TokKind) (t : String)
    (hmem : (k, p, tk) ∈ patterns)
    (hs : reSearch p.data tk c.data = some t)
    (hconv : convertsNumeric t = false) :
    (extract c).lookup k = some (.strV t) := by
  have hnotd : ¬ k ∈ derivedNames :=
    catalog_not_derived k (List.mem_map_of_mem Prod.fst hmem)
  have hmval : mvalOfToken t = .strV t := by
    unfold convertsNumeric at hconv
    unfold mvalOfToken
    split at hconv
    · rename_i hcond
      rw [if_pos hcond]
      rcases hf : pyFloat? t with _ | q
      · rfl
      · rw [hf] at hconv
        simp at hconv
    · rename_i hcond
      rw [if_neg hcond]
      rcases hf : pyInt? t with _ | n
      · rfl
      · rw [hf] at hconv
        simp at hconv
  rw [lookup_extract_not_derived c k hnotd, lookup_extractPrimary_mem c k p tk hmem, hs]
  simp [hmval]

/-- Claim C5 witness: the token `1.2.3` passes the `ipc` pattern but fails
`float`, so the raw string is stored. -/
theorem claim5_raw_token_fallback_witness :
    (extract "system.cpu.ipc   1.2.3").lookup "ipc" = some (.strV "1.2.3") :=
  claim5_raw_token_fallback "system.cpu.ipc   1.2.3" "ipc" "system.cpu.ipc" .numTok "1.2.3"
    (by decide) (by decide) (by decide)

/-- Claim C6, counterexample to the claim as stated: a filesystem whose
results directory exists, holding one `branch_prediction` workload whose
stats content `system.cpu.ipc 1.2.3` makes the extractor store the raw
string for `ipc`; the summary report then applies the `:.4f` float format to
that string, the uncaught `ValueError` terminates the run, and the exit code
is `1`, not `0`. -/
theorem claim6_counterexample :
    (⟨true, fun e => if e == "branch_prediction" then some ["w1"] else none,
        fun _ _ => some "system.cpu.ipc 1.2.3"⟩ : FileSystem).rootExists = true ∧
    (main_run ⟨true, fun e => if e == "branch_prediction" then some ["w1"] else none,
        fun _ _ => some "system.cpu.ipc 1.2.3"⟩ "results").2 = 1 :=
  ⟨rfl, by with_unfolding_all decide⟩

/-- Claim C6 (amended): with a missing results directory, `main` prints an
error naming the path and returns exit code `1` — its result is a constant
independent of every other filesystem component, so no file is read.  With
the directory present, it returns exit code `0` when every metric value the
summary report formats or aggregates numerically is numeric, and exit code
`1` when one of them is a raw string retained from a malformed token (the
format raises an uncaught exception). -/
theorem claim6_main_exit_codes (fs : FileSystem) (d : String) :
    (fs.rootExists = false →
      main_run fs d = (["Error: Results directory not found: " ++ d], 1)) ∧
    (fs.rootExists = true →
      ((summaryFormatted (load_experiment_results fs)).all fmtOk = true →
        (main_run fs d).2 = 0) ∧
      ((summaryFormatted (load_experiment_results fs)).all fmtOk = false →
        (main_run fs d).2 = 1)) := by
  refine ⟨?_, ?_⟩
  · intro h
    simp [main_run, h]
  · intro h
    refine ⟨?_, ?_⟩
    · intro hall
      simp [main_run, h, hall]
    · intro hall
      simp [main_run, h, hall]

/-- Claim C6 witness: the error exit at a missing directory, the clean exit
at an existing empty directory, and the exception exit when a `superscalar`
workload carries a malformed rate token. -/
theorem claim6_main_exit_codes_witness :
    main_run ⟨false, fun _ => none, fun _ _ => none⟩ "results" =
      (["Error: Results directory not found: " ++ "results"], 1) ∧
    (main_run ⟨true, fun _ => none, fun _ _ => none⟩ "results").2 = 0 ∧
    (main_run ⟨true, fun e => if e == "superscalar" then some ["w"] else none,
        fun _ _ => some "system.cpu.fetch.rate 1.2.3"⟩ "results").2 = 1 :=
  ⟨(claim6_main_exit_codes _ _).1 rfl,
   ((claim6_main_exit_codes _ _).2 rfl).1 (by decide),
   ((claim6_main_exit_codes _ _).2 rfl).2 (by with_unfolding_all decide)⟩

/-- Claim C7: every comparison-row field equals the report's value when the
key is present and the integer `0` when it is missing, and this default is
applied only at row construction — a metric whose pattern does not match is
simply absent from the report itself. -/
theorem claim7_row_defaults :
    (∀ (e w : String) (stats : List (String × MValue)),
      (makeRow e w stats).experiment = e ∧
      (makeRow e w stats).workload = w ∧
      (makeRow e w stats).ipc = (stats.lookup "ipc").getD (.intV 0) ∧
      (makeRow e w stats).sim_seconds = (stats.lookup "sim_seconds").getD (.intV 0) ∧
      (makeRow e w stats).committedInsts = (stats.lookup "committedInsts").getD (.intV 0) ∧
      (makeRow e w stats).branch_accuracy = (stats.lookup "branch_accuracy").getD (.intV 0) ∧
      (makeRow e w stats).dcache_hit_rate = (stats.lookup "dcache_hit_rate").getD (.intV 0) ∧
      (makeRow e w stats).l2cache_hit_rate = (stats.lookup "l2cache_hit_rate").getD (.intV 0)) ∧
    (∀ (c k p : String) (tk : TokKind), (k, p, tk) ∈ patterns →
      reSearch p.data tk c.data = none → (extract c).lookup k = none) := by
  constructor
  · intro e w stats
    exact ⟨rfl, rfl, rfl, rfl, rfl, rfl, rfl, rfl⟩
  · intro c k p tk hmem hs
    have hnotd : ¬ k ∈ derivedNames :=
      catalog_not_derived k (List.mem_map_of_mem Prod.fst hmem)
    rw [lookup_extract_not_derived c k hnotd, lookup_extractPrimary_mem c k p tk hmem, hs]
    rfl

/-- Claim C7 witness: a present field keeps its value, and an unmatched
metric stays absent from the extracted report. -/
theorem claim7_row_defaults_witness :
    (makeRow "e1" "w1" [("ipc", MValue.floatV 2)]).ipc =
      (([("ipc", MValue.floatV 2)] : List (String × MValue)).lookup "ipc").getD (.intV 0) ∧
    (extract "").lookup "ipc" = none :=
  ⟨(claim7_row_defaults.1 "e1" "w1" _).2.2.1,
   claim7_row_defaults.2 "" "ipc" "system.cpu.ipc" .numTok (by decide) (by decide)⟩

/-- Claim C8: the per-experiment aggregate of the `ipc` field is the
arithmetic mean over all rows sharing that experiment label; three rows with
`ipc` values 1, 2, 3 (extracted through the full pipeline) under one label
average to 2. -/
theorem claim8_group_mean :
    (∀ (rows : List Row) (label : String) (qs : List Rat),
      allNum? ((rows.filter (fun r => r.experiment == label)).map Row.ipc) = some qs →
      ¬ qs = [] →
      groupMeanIpc rows label = some (qs.sum / (qs.length : Rat))) ∧
    groupMeanIpc
      [makeRow "exp1" "w1" (extract "system.cpu.ipc 1.0"),
       makeRow "exp1" "w2" (extract "system.cpu.ipc 2.0"),
       makeRow "exp1" "w3" (extract "system.cpu.ipc 3.0")] "exp1" = some 2 := by
  constructor
  · intro rows label qs hall hne
    have hq : qs.isEmpty = false := by
      rcases qs with _ | ⟨a, l⟩
      · exact absurd rfl hne
      · rfl
    simp [groupMeanIpc, hall, hq]
  · with_unfolding_all decide

/-- Claim C8 witness: grouping selects exactly the label's rows and averages
them — rows `(a, 1)`, `(a, 3)`, `(b, 100)` give mean 2 for label `a`. -/
theorem claim8_group_mean_witness :
    groupMeanIpc
      [makeRow "a" "w" [("ipc", MValue.intV 1)], makeRow "a" "x" [("ipc", MValue.intV 3)],
       makeRow "b" "y" [("ipc", MValue.intV 100)]] "a" =
      some (([((1 : Int) : Rat), ((3 : Int) : Rat)]).sum /
        (([((1 : Int) : Rat), ((3 : Int) : Rat)]).length : Rat)) :=
  claim8_group_mean.1 _ "a" [((1 : Int) : Rat), ((3 : Int) : Rat)]
    (by with_unfolding_all decide) (by decide)

/-- Claim C9: the value stored for a metric is parsed from the leftmost match
of its pattern — a match at position `i` with no match at any earlier
position fixes the stored value, whatever matches occur later in the text. -/
theorem claim9_leftmost_match (c k p : String) (tk : TokKind) (i : Nat) (t : String)
    (hmem : (k, p, tk) ∈ patterns)
    (hi : tryMatchAt p.data tk (c.data.drop i) = some t)
    (hmin : ∀ j, j < i → tryMatchAt p.data tk (c.data.drop j) = none) :
    (extract c).lookup k = some (mvalOfToken t) := by
  have hs : reSearch p.data tk c.data = some t := reSearch_of_first p.data tk c.data i t hi hmin
  have hnotd : ¬ k ∈ derivedNames :=
    catalog_not_derived k (List.mem_map_of_mem Prod.fst hmem)
  rw [lookup_extract_not_derived c k hnotd, lookup_extractPrimary_mem c k p tk hmem, hs]
  rfl

/-- Claim C9 witness: with two `sim_insts` occurrences, the first (value 5)
wins over the later one (value 1000). -/
theorem claim9_leftmost_match_witness :
    (extract "sim_insts 5 sim_insts 1000").lookup "sim_insts" = some (.intV 5) := by
  have h := claim9_leftmost_match "sim_insts 5 sim_insts 1000" "sim_insts" "sim_insts"
    .intTok 0 "5" (by decide) (by decide) (fun j hj => absurd hj (Nat.not_lt_zero j))
  rw [show mvalOfToken "5" = MValue.intV 5 from by decide] at h
  exact h

/-- Claim C10: every metric whose pattern captures digits only stores a
nonnegative integer (never a float, a sign, or an exponent form), namely the
value of the captured maximal digit run; `sim_insts 10.5` stores the
integer 10. -/
theorem claim10_int_patterns :
    (∀ (k : String), k ∈ intMetricNames → ∀ (c : String) (v : MValue),
      (extract c).lookup k = some v → ∃ n : Nat, v = .intV (n : Int)) ∧
    (∀ (lit cs : List Char) (t : String), reSearch lit .intTok cs = some t →
      mvalOfToken t = .intV (digitsVal t.data)) ∧
    (extract "sim_insts 10.5").lookup "sim_insts" = some (.intV 10) := by
  refine ⟨?_, ?_, ?_⟩
  · intro k hk c v hv
    have hknotd : ¬ k ∈ derivedNames := int_names_not_derived k hk
    rw [lookup_extract_not_derived c k hknotd] at hv
    obtain ⟨p, tk, t, hmem, hs, hval⟩ := lookup_filterMapSearch_some c.data patterns k v hv
    have htk : tk = .intTok := patterns_int_names (k, p, tk) hmem hk
    subst htk
    obtain ⟨hne, hd⟩ := reSearch_intTok_digits p.data c.data t hs
    refine ⟨digitsVal t.data, ?_⟩
    rw [hval]
    exact mvalOfToken_digits t hne hd
  · intro lit cs t hs
    obtain ⟨hne, hd⟩ := reSearch_intTok_digits lit cs t hs
    exact mvalOfToken_digits t hne hd
  · decide

/-- Claim C10 witness: instantiating the universal part at `sim_insts` on a
concrete input. -/
theorem claim10_int_patterns_witness :
    ∃ n : Nat, MValue.intV 7 = MValue.intV (n : Int) :=
  claim10_int_patterns.1 "sim_insts" (by decide) "sim_insts 7" (MValue.intV 7) (by decide)

end Gem5
